import Mathlib

/-!
Verification of the Director Bake-Off repository (two files:
director_bake_off.py and gradio_interface.py).

The embedding models:
  * Python exceptions as an `Except PyErr` result type;
  * the three DSPy predictors held by the `DirectorBakeOff` module as
    oracle functions (they wrap external LLM network calls, which are
    out of scope of the repository);
  * `asyncio.gather` as a fan-out/fan-in join that is driven by an
    explicit completion schedule (the order in which the concurrent
    calls finish), so that order-independence is provable;
  * Python string operations (`str.strip`, `str.split(",")`,
    `", ".join`, `s[0].upper() + s[1:]`) as character-list functions,
    faithful to CPython semantics on the ASCII inputs the program uses.
-/

/-- Python exception values that the two source files can raise or
propagate.  `taskError` stands for a transport/provider error raised by
an LLM task call; `systemExit c` models `sys.exit(c)`; `pending` marks
the (unreachable, modelling a hang) case of an incomplete gather
schedule. -/
inductive PyErr where
  | valueError : PyErr
  | indexError : PyErr
  | taskError : String → PyErr
  | systemExit : Nat → PyErr
  | pending : PyErr
deriving DecidableEq

/-- Python `str(e)` for the exceptions above (CPython message texts). -/
def pyStr : PyErr → String
  | PyErr.valueError => "min() arg is an empty sequence"
  | PyErr.indexError => "list index out of range"
  | PyErr.taskError m => m
  | PyErr.systemExit c => toString c
  | PyErr.pending => "pending"

/-- Python `str.strip()` (whitespace trim on both ends), on the
character list of the string.  `Char.isWhitespace` covers the ASCII
whitespace the program ever sees. -/
def pyStrip (s : String) : String :=
  String.mk (((s.data.dropWhile Char.isWhitespace).reverse.dropWhile Char.isWhitespace).reverse)

/-- Helper for `pySplitComma`: walks the characters, cutting at commas;
`acc` holds the current segment reversed. -/
def splitCommaAux : List Char → List Char → List String
  | [], acc => [String.mk acc.reverse]
  | c :: cs, acc =>
    if c = ',' then String.mk acc.reverse :: splitCommaAux cs []
    else splitCommaAux cs (c :: acc)

/-- Python `s.split(",")`: splits at every comma and keeps empty
segments, so the empty string splits to `[""]`. -/
def pySplitComma (s : String) : List String :=
  splitCommaAux s.data []

/-- Python `sep.join(parts)`. -/
def pyJoin (sep : String) : List String → String
  | [] => ""
  | [s] => s
  | s :: rest => s ++ sep ++ pyJoin sep rest

/-- Python `s[0].upper() + s[1:]` (total: returns `""` on the empty
string, which the source never reaches because it tests emptiness
first). -/
def pyCapFirst (s : String) : String :=
  match s.data with
  | [] => ""
  | c :: cs => String.mk (Char.toUpper c :: cs)

/-- Is the pattern a prefix of the character list? -/
def listPrefixOf : List Char → List Char → Bool
  | [], _ => true
  | _ :: _, [] => false
  | a :: as, b :: bs => a == b && listPrefixOf as bs

/-- Does the pattern occur as a contiguous run in the character list? -/
def listInfixOf : List Char → List Char → Bool
  | pat, [] => listPrefixOf pat []
  | pat, c :: rest => listPrefixOf pat (c :: rest) || listInfixOf pat rest

/-- Python `pat in s` on strings (substring test). -/
def strContains (s pat : String) : Bool :=
  listInfixOf pat.data s.data

/-- Pydantic model `DirectorCut` from director_bake_off.py: the echoed
director and video idea plus the seven descriptive cinematic fields. -/
structure DirectorCut where
  director : String
  video_idea : String
  subject_description : String
  action_description : String
  setting_description : String
  cinematic_style : String
  shot_and_framing : String
  camera_movement : String
  lighting_and_color : String
deriving DecidableEq

/-- The `components` list built inside `DirectorCut.assemble_prompt`:
the seven descriptive fields in source order (director and video_idea
excluded). -/
def DirectorCut.components (c : DirectorCut) : List String :=
  [c.subject_description, c.action_description, c.setting_description,
   c.cinematic_style, c.shot_and_framing, c.camera_movement,
   c.lighting_and_color]

/-- `DirectorCut.assemble_prompt`:
`", ".join(filter(None, [c.strip() for c in components if c]))`, then
`""` when that is empty, else first character upper-cased and a period
appended. -/
def DirectorCut.assemble_prompt (c : DirectorCut) : String :=
  let prompt_string :=
    pyJoin (", ")
      (((c.components.filter (fun s => s != "")).map pyStrip).filter (fun s => s != ""))
  if prompt_string = "" then "" else pyCapFirst prompt_string ++ "."

/-- Output shape of the `DirectorJudge` signature: the positional rank
list and the free-text (HTML-bearing) explanation. -/
structure JudgeOutput where
  director_rankings : List Int
  explanation : String
deriving DecidableEq

/-- `ResultClass` from director_bake_off.py: the AI-suggested director,
all generated director cuts (in submission order), and the judge
output. -/
structure ResultClass where
  additional_director : String
  director_ideas : List DirectorCut
  director_ranks : JudgeOutput
deriving DecidableEq

/-- Helper mirroring CPython `min` iteration: keeps the current best and
replaces it only on a strictly smaller element. -/
def pyMinAux (best : Int) : List Int → Int
  | [] => best
  | x :: xs => pyMinAux (if x < best then x else best) xs

/-- Python `min(l)`: `ValueError` on the empty list, else the minimum. -/
def pyMin : List Int → Except PyErr Int
  | [] => Except.error PyErr.valueError
  | x :: xs => Except.ok (pyMinAux x xs)

/-- Python `l.index(v)`: index of the first occurrence, `ValueError`
when absent. -/
def pyListIndex : List Int → Int → Except PyErr Nat
  | [], _ => Except.error PyErr.valueError
  | x :: xs, v => if x = v then Except.ok 0 else (pyListIndex xs v).map (· + 1)

/-- Step 6 of `DirectorBakeOff.aforward` (stage S4, select-winner):
`best_rank = min(rankings)`, `best_index = rankings.index(best_rank)`,
`best_idea = ideas[best_index]`. -/
def selectWinner (ideas : List DirectorCut) (rankings : List Int) :
    Except PyErr (Nat × DirectorCut) :=
  match pyMin rankings with
  | Except.error e => Except.error e
  | Except.ok best_rank =>
    match pyListIndex rankings best_rank with
    | Except.error e => Except.error e
    | Except.ok best_index =>
      match ideas[best_index]? with
      | none => Except.error PyErr.indexError
      | some best_idea => Except.ok (best_index, best_idea)

/-- One completion event of `asyncio.gather`: task `i` finishes and its
result is written into slot `i`; a raised exception aborts the join. -/
def gatherRun (tasks : List (Except PyErr α)) :
    List (Option α) → List Nat → Except PyErr (List (Option α))
  | slots, [] => Except.ok slots
  | slots, i :: rest =>
    match tasks[i]? with
    | none => gatherRun tasks slots rest
    | some (Except.error e) => Except.error e
    | some (Except.ok v) => gatherRun tasks (slots.set i (some v)) rest

/-- Reads the joined results out of the slots in submission order; a
still-empty slot means a task never completed (a hang, `pending`). -/
def collectSlots : List (Option α) → Except PyErr (List α)
  | [] => Except.ok []
  | none :: _ => Except.error PyErr.pending
  | some v :: rest => (collectSlots rest).map (fun l => v :: l)

/-- `asyncio.gather(*tasks)`: runs the completion schedule `sched` (the
order in which the concurrent calls finish) over empty slots, then
joins in submission order. -/
def gather (tasks : List (Except PyErr α)) (sched : List Nat) :
    Except PyErr (List α) :=
  match gatherRun tasks (List.replicate tasks.length none) sched with
  | Except.error e => Except.error e
  | Except.ok slots => collectSlots slots

/-- The DSPy module `DirectorBakeOff`: its three predictors, modelled as
oracles for the external LLM task calls. -/
structure DirectorBakeOff where
  findDirector : String → List String → Except PyErr String
  genDirectorCut : String → String → Except PyErr DirectorCut
  directorJudge : List DirectorCut → Except PyErr JudgeOutput

/-- `all_directors = directors + [additional_director]`: the director
list for which breakdown-generation calls are issued, one per entry. -/
def genCallDirectors (additional_director : String) (directors : List String) :
    List String :=
  directors ++ [additional_director]

/-- `DirectorBakeOff.aforward`: S1 suggest a director, S2 generate all
cuts concurrently (gather), S3 judge, S4 select the winner (computed
for display; any failure there propagates), then return the
`ResultClass`. -/
def DirectorBakeOff.aforward (bo : DirectorBakeOff) (sched : List Nat)
    (video_idea : String) (directors : List String) :
    Except PyErr ResultClass :=
  match bo.findDirector video_idea directors with
  | Except.error e => Except.error e
  | Except.ok additional_director =>
    let all_directors := genCallDirectors additional_director directors
    let tasks := all_directors.map (fun d => bo.genDirectorCut video_idea d)
    match gather tasks sched with
    | Except.error e => Except.error e
    | Except.ok director_ideas =>
      match bo.directorJudge director_ideas with
      | Except.error e => Except.error e
      | Except.ok director_ranks =>
        match selectWinner director_ideas director_ranks.director_rankings with
        | Except.error e => Except.error e
        | Except.ok _best =>
          Except.ok (ResultClass.mk additional_director director_ideas director_ranks)

/-- The configured language model handle (`dspy.LM(...)`). -/
structure LM where
  model : String
  api_key : String
deriving DecidableEq

/-- Process-level state: the global `lm` handle, plus a count of how
often `setup_dspy_provider` has been invoked (instrumentation for the
initialized-at-most-once property). -/
structure ProcState where
  lm : Option LM
  setupCalls : Nat
deriving DecidableEq

/-- `setup_dspy_provider`: reads `OPENROUTER_API_KEY` from the process
environment; a missing (or falsy empty) key prints a diagnostic and
calls `sys.exit(1)`; otherwise the LM handle is built. -/
def setup_dspy_provider (env : Option String) : Except PyErr LM :=
  match env with
  | none => Except.error (PyErr.systemExit 1)
  | some key =>
    if key = "" then Except.error (PyErr.systemExit 1)
    else Except.ok (LM.mk ("openrouter/moonshotai/kimi-k2:free") key)

/-- The fixed default director list used by `run_bake_off`. -/
def default_directors : List String :=
  ["Quentin Tarantino", "Alfred Hitchcock", "Richard Curtis"]

/-- Step 2 of `run_bake_off`: director-string parsing.  `None` or a
blank string falls back to the defaults; otherwise split on commas,
strip each entry, drop empties, and fall back to the defaults when
nothing remains. -/
def parse_directors (directors : Option String) : List String :=
  match directors with
  | none => default_directors
  | some s =>
    if pyStrip s = "" then default_directors
    else
      let parsed := ((pySplitComma s).map pyStrip).filter (fun d => d != "")
      if parsed = [] then default_directors else parsed

/-- `run_bake_off`: ensures the LM handle is configured (setting it up
from the environment when the global is still unset), parses the
director string, and drives `aforward` to completion.  Returns the
orchestration outcome together with the updated process state. -/
def run_bake_off (bo : DirectorBakeOff) (sched : List Nat)
    (env : Option String) (st : ProcState)
    (video_idea : String) (directors : Option String) :
    Except PyErr ResultClass × ProcState :=
  match st.lm with
  | some _ => (bo.aforward sched video_idea (parse_directors directors), st)
  | none =>
    match setup_dspy_provider env with
    | Except.error e => (Except.error e, ProcState.mk none (st.setupCalls + 1))
    | Except.ok l =>
      (bo.aforward sched video_idea (parse_directors directors),
       ProcState.mk (some l) (st.setupCalls + 1))

/-- The ordering used by the presentation sort: compare the rank
component of a `(rank, cut)` pair (`ranked_ideas.sort(key=lambda x: x[0])`). -/
def pairLE (a b : Int × DirectorCut) : Prop := a.1 ≤ b.1

instance : DecidableRel pairLE :=
  fun a b => inferInstanceAs (Decidable (a.1 ≤ b.1))

instance : IsTotal (Int × DirectorCut) pairLE :=
  ⟨fun a b => Int.le_total a.1 b.1⟩

instance : IsTrans (Int × DirectorCut) pairLE :=
  ⟨fun _ _ _ h1 h2 => le_trans h1 h2⟩

/-- The `ranked_ideas` list built in `format_results_html`: one
`(rank, director_cut)` pair per idea, the rank read positionally from
`director_rankings[i]`; an out-of-range read raises IndexError. -/
def buildRanked (ideas : List DirectorCut) (rankings : List Int) :
    Except PyErr (List (Int × DirectorCut)) :=
  if ideas.length ≤ rankings.length then Except.ok (rankings.zip ideas)
  else Except.error PyErr.indexError

/-- `ranked_ideas.sort(key=lambda x: x[0])`: a stable ascending sort by
rank (CPython sort is stable; insertion sort with `pairLE` matches it
extensionally). -/
def sortRanked (pairs : List (Int × DirectorCut)) : List (Int × DirectorCut) :=
  List.insertionSort pairLE pairs

/-- The director cuts in the order the cards are rendered. -/
def renderOrder (ideas : List DirectorCut) (rankings : List Int) :
    Except PyErr (List DirectorCut) :=
  (buildRanked ideas rankings).map (fun pairs => (sortRanked pairs).map Prod.snd)

/-- The placeholder shown when `format_results_html` receives a falsy
result. -/
def noResultsHtml : String := "<div class=\"loading\">No results to display.</div>"

/-- Header fragment of the results page (inline style attributes of the
source elided; the interpolated data is kept). -/
def headerHtml (additional_director : String) : String :=
  "<div class=\"results-container\"><div class=\"additional-director\">"
    ++ "<div class=\"section-title\">AI Suggested Director</div><div><strong>"
    ++ additional_director
    ++ "</strong> - A perfect match for your vision!</div></div>"
    ++ "<div class=\"section-title\">Director Interpretations (Ranked)</div>"

/-- One rendered director card: rank badge, director name, assembled
prompt, and the expandable detail panel listing the seven fields. -/
def cardHtml (p : Int × DirectorCut) : String :=
  "<div class=\"director-card\"><div class=\"rank-badge\">#" ++ toString p.1
    ++ "</div><div class=\"director-name\">" ++ p.2.director
    ++ "</div><div class=\"prompt-text\">" ++ p.2.assemble_prompt
    ++ "</div><details><summary>View Detailed Breakdown</summary><div>"
    ++ "<div><strong>Subject:</strong> " ++ p.2.subject_description
    ++ "</div><div><strong>Action:</strong> " ++ p.2.action_description
    ++ "</div><div><strong>Setting:</strong> " ++ p.2.setting_description
    ++ "</div><div><strong>Style:</strong> " ++ p.2.cinematic_style
    ++ "</div><div><strong>Shot &amp; Framing:</strong> " ++ p.2.shot_and_framing
    ++ "</div><div><strong>Camera Movement:</strong> " ++ p.2.camera_movement
    ++ "</div><div><strong>Lighting &amp; Color:</strong> " ++ p.2.lighting_and_color
    ++ "</div></div></details></div>"

/-- The closing explanation block; the judge explanation is passed
through unescaped (trusted markup). -/
def explanationHtml (explanation_text : String) : String :=
  "<div class=\"explanation-section\"><div class=\"section-title\">Judge Reasoning</div><div>"
    ++ explanation_text ++ "</div></div></div>"

/-- The diagnostic panel produced by the `except` block inside
`format_results_html`: only the `str(e)` text, no traceback. -/
def errorFormattingPanel (e : PyErr) : String :=
  "<div class=\"results-container\"><div><strong>Error formatting results:</strong> "
    ++ pyStr e ++ "</div></div>"

/-- The body of the `try` block of `format_results_html`: builds the
positional rank pairs (which can raise), sorts them, and concatenates
the HTML fragments. -/
def format_body (r : ResultClass) : Except PyErr String :=
  match buildRanked r.director_ideas r.director_ranks.director_rankings with
  | Except.error e => Except.error e
  | Except.ok pairs =>
    Except.ok (headerHtml r.additional_director
      ++ ((sortRanked pairs).map cardHtml).foldl (fun a b => a ++ b) ""
      ++ explanationHtml r.director_ranks.explanation)

/-- `format_results_html`: falsy result gives a placeholder; otherwise
the try-body runs and any exception it raises is caught locally and
rendered as the formatting-error panel. -/
def format_results_html (result : Option ResultClass) : String :=
  match result with
  | none => noResultsHtml
  | some r =>
    match format_body r with
    | Except.ok html => html
    | Except.error e => errorFormattingPanel e

/-- The error panel of `run_director_bakeoff`: message text plus a
collapsible technical-details section holding the full traceback
(`tb` models `traceback.format_exc()`). -/
def somethingWentWrongPanel (e : PyErr) (tb : String) : String :=
  "<div class=\"results-container\"><div><div>Something went wrong!</div><div>"
    ++ pyStr e
    ++ "</div><details><summary>View technical details</summary><pre>"
    ++ tb ++ "</pre></details></div></div>"

/-- The first yielded fragment: the progress placeholder (static text of
the source, styling elided). -/
def loadingHtml : String :=
  "<div class=\"loading\"><div>Director Bake-Off in Progress...</div>"
    ++ "<div>Please be patient, this may take some minutes...</div></div>"

/-- The guard of `run_director_bakeoff`:
`not video_idea or not video_idea.strip()`. -/
def pyFalsyOrBlank (video_idea : Option String) : Bool :=
  match video_idea with
  | none => true
  | some s => s = "" || pyStrip s = ""

/-- The generator `run_director_bakeoff`, as the list of fragments it
yields plus whether `run_bake_off` was invoked and the resulting
process state.  On a blank video idea the guard executes `return`
inside the generator, so iteration stops without yielding anything (the
guard message becomes the `StopIteration` value, which the caller
discards).  A `SystemExit` escapes the `except Exception` handler, so
only the loading fragment was yielded in that case. -/
def run_director_bakeoff (bo : DirectorBakeOff) (sched : List Nat)
    (env : Option String) (st : ProcState) (tb : String)
    (video_idea : Option String) (directors : Option String) :
    List String × Bool × ProcState :=
  if pyFalsyOrBlank video_idea then ([], false, st)
  else
    match run_bake_off bo sched env st (video_idea.getD "") directors with
    | (Except.ok r, st') => ([loadingHtml, format_results_html (some r)], true, st')
    | (Except.error (PyErr.systemExit _), st') => ([loadingHtml], true, st')
    | (Except.error e, st') => ([loadingHtml, somethingWentWrongPanel e tb], true, st')

/-- A `gr.update(value=..., visible=...)` as passed to the output HTML
component. -/
structure GrUpdate where
  value : String
  visible : Bool
deriving DecidableEq

/-- `handle_submit` from `create_interface`: wraps every fragment the
generator yields in a visible `gr.update`. -/
def handle_submit (bo : DirectorBakeOff) (sched : List Nat)
    (env : Option String) (st : ProcState) (tb : String)
    (video_idea : Option String) (directors : Option String) :
    List GrUpdate × Bool × ProcState :=
  match run_director_bakeoff bo sched env st tb video_idea directors with
  | (outs, invoked, st') => (outs.map (fun h => GrUpdate.mk h true), invoked, st')

/-- The slot contents after the completion events in `sched` have been
processed, in the run where every task succeeds with the values in
`results`. -/
def applySched (results : List α) : List (Option α) → List Nat → List (Option α)
  | slots, [] => slots
  | slots, i :: rest =>
    match results[i]? with
    | none => applySched results slots rest
    | some v => applySched results (slots.set i (some v)) rest

/-- A concrete director cut used by the witness scenarios. -/
def demoCut (d : String) : DirectorCut :=
  DirectorCut.mk d ("a lighthouse at dawn") ("keeper") ("walks") ("shore")
    ("8K") ("wide") ("dolly") ("dawn light")

/-- A cut whose seven descriptive fields are non-empty but consist of
whitespace only. -/
def wsCut : DirectorCut :=
  DirectorCut.mk ("D") ("V") (" ") (" ") (" ") (" ") (" ") (" ") (" ")

/-- A deterministic judge oracle for witness scenarios: ranks the cuts
1, 2, ... in submission order (so its rank list always has the
contracted length). -/
def demoJudge : List DirectorCut → Except PyErr JudgeOutput :=
  fun cuts =>
    Except.ok (JudgeOutput.mk ((List.range cuts.length).map (fun i => (i : Int) + 1))
      ("<h4>demo</h4>"))

/-- A fully successful bake-off module used by the witness scenarios. -/
def demoBakeOff : DirectorBakeOff :=
  DirectorBakeOff.mk (fun _ _ => Except.ok ("Hayao Miyazaki"))
    (fun _ d => Except.ok (demoCut d)) demoJudge

/-- A module whose judge stage raises a transport error. -/
def failingJudgeBakeOff : DirectorBakeOff :=
  DirectorBakeOff.mk (fun _ _ => Except.ok ("Hayao Miyazaki"))
    (fun _ d => Except.ok (demoCut d))
    (fun _ => Except.error (PyErr.taskError ("transport error")))

/-- Does an HTML fragment carry the full-trace disclosure of the
orchestration error panel (the collapsible technical-details section
with a preformatted traceback)? -/
def includesFullTrace (s : String) : Prop :=
  strContains s ("View technical details") = true ∧ strContains s ("<pre") = true

instance (s : String) : Decidable (includesFullTrace s) :=
  inferInstanceAs (Decidable (strContains s ("View technical details") = true
    ∧ strContains s ("<pre") = true))

/-- A successful-looking result whose rank list is shorter than its
breakdown list, so formatting it raises IndexError internally. -/
def badFormatResult : ResultClass :=
  ResultClass.mk ("X") [demoCut ("A"), demoCut ("B")] (JudgeOutput.mk [1] ("why"))

lemma gatherRun_map_ok (results : List α) (sched : List Nat) :
    ∀ slots, gatherRun (results.map Except.ok) slots sched
      = Except.ok (applySched results slots sched) := by
  induction sched with
  | nil => intro slots; rfl
  | cons i rest ih =>
    intro slots
    simp only [gatherRun, applySched, List.getElem?_map]
    cases h : results[i]? with
    | none => simp [h, ih]
    | some v => simp [h, ih]

lemma applySched_length (results : List α) (sched : List Nat) :
    ∀ slots : List (Option α), (applySched results slots sched).length = slots.length := by
  induction sched with
  | nil => intro slots; rfl
  | cons i rest ih =>
    intro slots
    simp only [applySched]
    cases h : results[i]? with
    | none => exact ih slots
    | some v => rw [ih (slots.set i (some v)), List.length_set]

lemma applySched_getElem_not_mem (results : List α) (sched : List Nat) (j : Nat)
    (hj : j ∉ sched) :
    ∀ slots : List (Option α), (applySched results slots sched)[j]? = slots[j]? := by
  induction sched with
  | nil => intro slots; rfl
  | cons i rest ih =>
    intro slots
    have hji : j ≠ i := fun h => hj (h ▸ List.mem_cons_self i rest)
    have hjr : j ∉ rest := fun h => hj (List.mem_cons_of_mem i h)
    simp only [applySched]
    cases h : results[i]? with
    | none => exact ih hjr slots
    | some v =>
      rw [ih hjr (slots.set i (some v)), List.getElem?_set,
        if_neg (fun h => hji h.symm)]

lemma applySched_getElem_mem (results : List α) (sched : List Nat) (j : Nat) (v : α)
    (hv : results[j]? = some v) :
    ∀ slots : List (Option α), j ∈ sched → j < slots.length →
      (applySched results slots sched)[j]? = some (some v) := by
  induction sched with
  | nil => intro slots hj _; cases hj
  | cons i rest ih =>
    intro slots hj hlt
    by_cases hjr : j ∈ rest
    · simp only [applySched]
      cases h : results[i]? with
      | none => exact ih slots hjr hlt
      | some w => exact ih (slots.set i (some w)) hjr (by rw [List.length_set]; exact hlt)
    · have hji : j = i := by
        rcases List.mem_cons.mp hj with h | h
        · exact h
        · exact absurd h hjr
      subst hji
      simp only [applySched, hv]
      rw [applySched_getElem_not_mem results rest j hjr, List.getElem?_set]
      simp [hlt]

lemma collectSlots_ok (results : List α) :
    ∀ slots : List (Option α), slots.length = results.length →
      (∀ (j : Nat) (v : α), results[j]? = some v → slots[j]? = some (some v)) →
      collectSlots slots = Except.ok results := by
  induction results with
  | nil =>
    intro slots hlen _
    have hnil : slots = [] := List.length_eq_zero.mp (by simpa using hlen)
    rw [hnil]
    rfl
  | cons r rs ih =>
    intro slots hlen hpt
    cases slots with
    | nil => simp at hlen
    | cons s ss =>
      have h0 := hpt 0 r (by simp)
      simp only [List.getElem?_cons_zero, Option.some.injEq] at h0
      subst h0
      simp only [collectSlots]
      rw [ih ss (by simpa using hlen)
        (fun j v hv => by simpa using hpt (j + 1) v (by simpa using hv))]
      rfl

/-- Fan-out/fan-in order independence: when every task succeeds, any
schedule in which every task eventually completes joins to the results
in submission order. -/
lemma gather_ok (results : List α) (sched : List Nat)
    (h : ∀ i, i < results.length → i ∈ sched) :
    gather (results.map Except.ok) sched = Except.ok results := by
  unfold gather
  rw [List.length_map, gatherRun_map_ok]
  apply collectSlots_ok
  · rw [applySched_length, List.length_replicate]
  · intro j v hv
    have hjlt : j < results.length := by
      by_contra hge
      rw [List.getElem?_eq_none (Nat.le_of_not_lt hge)] at hv
      cases hv
    exact applySched_getElem_mem results sched j v hv _ (h j hjlt)
      (by rw [List.length_replicate]; exact hjlt)

lemma pyMinAux_le_left (xs : List Int) : ∀ b : Int, pyMinAux b xs ≤ b := by
  induction xs with
  | nil => intro b; exact le_refl b
  | cons x xs ih =>
    intro b
    simp only [pyMinAux]
    refine le_trans (ih _) ?_
    by_cases h : x < b
    · simp [h, le_of_lt h]
    · simp [h]

lemma pyMinAux_le_mem (xs : List Int) : ∀ b : Int, ∀ y ∈ xs, pyMinAux b xs ≤ y := by
  induction xs with
  | nil => intro b y hy; cases hy
  | cons x xs ih =>
    intro b y hy
    simp only [pyMinAux]
    rcases List.mem_cons.mp hy with h | h
    · subst h
      refine le_trans (pyMinAux_le_left xs _) ?_
      by_cases h : y < b
      · simp [h]
      · simp [h, le_of_not_lt h]
    · exact ih _ y h

lemma pyMinAux_mem_or (xs : List Int) : ∀ b : Int, pyMinAux b xs = b ∨ pyMinAux b xs ∈ xs := by
  induction xs with
  | nil => intro b; exact Or.inl rfl
  | cons x xs ih =>
    intro b
    simp only [pyMinAux]
    rcases ih (if x < b then x else b) with h | h
    · by_cases hx : x < b
      · right; rw [h]; simp [hx]
      · left; rw [h]; simp [hx]
    · right; exact List.mem_cons_of_mem x h

lemma pyMin_ok (l : List Int) (hne : l ≠ []) :
    ∃ m, pyMin l = Except.ok m ∧ m ∈ l ∧ ∀ x ∈ l, m ≤ x := by
  cases l with
  | nil => exact absurd rfl hne
  | cons x xs =>
    refine ⟨pyMinAux x xs, rfl, ?_, ?_⟩
    · rcases pyMinAux_mem_or xs x with h | h
      · rw [h]; exact List.mem_cons_self x xs
      · exact List.mem_cons_of_mem x h
    · intro y hy
      rcases List.mem_cons.mp hy with h | h
      · subst h; exact pyMinAux_le_left xs y
      · exact pyMinAux_le_mem xs x y h

lemma pyListIndex_ok (l : List Int) (v : Int) (h : v ∈ l) :
    ∃ i, pyListIndex l v = Except.ok i ∧ i < l.length ∧ l[i]? = some v ∧
      ∀ j, j < i → l[j]? ≠ some v := by
  induction l with
  | nil => cases h
  | cons x xs ih =>
    by_cases hx : x = v
    · exact ⟨0, by simp [pyListIndex, hx], Nat.succ_pos _, by simp [hx], fun j hj => absurd hj (Nat.not_lt_zero j)⟩
    · have hv : v ∈ xs := by
        rcases List.mem_cons.mp h with h | h
        · exact absurd h.symm hx
        · exact h
      obtain ⟨i, h1, h2, h3, h4⟩ := ih hv
      refine ⟨i + 1, ?_, Nat.succ_lt_succ h2, by simpa using h3, ?_⟩
      · simp [pyListIndex, hx, h1, Except.map]
      · intro j hj
        cases j with
        | zero => simp [hx]
        | succ k => simpa using h4 k (Nat.lt_of_succ_lt_succ hj)

/-- Winner selection spec: `selectWinner` succeeds on a non-empty rank
list (covered by the ideas list) and picks the first index holding the
minimum rank, together with the idea stored there. -/
lemma selectWinner_spec (ideas : List DirectorCut) (rankings : List Int)
    (hne : rankings ≠ []) (hlen : rankings.length ≤ ideas.length) :
    ∃ m i w, pyMin rankings = Except.ok m ∧
      selectWinner ideas rankings = Except.ok (i, w) ∧
      rankings[i]? = some m ∧ (∀ x ∈ rankings, m ≤ x) ∧
      (∀ j, j < i → rankings[j]? ≠ some m) ∧ ideas[i]? = some w := by
  obtain ⟨m, hm, hmem, hle⟩ := pyMin_ok rankings hne
  obtain ⟨i, hi, hilt, hgi, hfirst⟩ := pyListIndex_ok rankings m hmem
  have hlt : i < ideas.length := lt_of_lt_of_le hilt hlen
  have hw : ideas[i]? = some ideas[i] := List.getElem?_eq_getElem hlt
  refine ⟨m, i, ideas[i], hm, ?_, hgi, hle, hfirst, hw⟩
  simp only [selectWinner, hm, hi, hw]

/-- Under a successful suggestion, all-successful generation calls, and
a complete completion schedule, `aforward` reduces to the judging and
winner-selection stages over the cuts in submission order. -/
lemma aforward_gen (bo : DirectorBakeOff) (sched : List Nat) (vi adr : String)
    (directors : List String) (g : String → DirectorCut)
    (hs : bo.findDirector vi directors = Except.ok adr)
    (hg : ∀ d ∈ genCallDirectors adr directors,
      bo.genDirectorCut vi d = Except.ok (g d))
    (hsched : ∀ i, i < directors.length + 1 → i ∈ sched) :
    bo.aforward sched vi directors =
      (match bo.directorJudge ((genCallDirectors adr directors).map g) with
       | Except.error e => Except.error e
       | Except.ok jr =>
         match selectWinner ((genCallDirectors adr directors).map g)
             jr.director_rankings with
         | Except.error e => Except.error e
         | Except.ok _best =>
           Except.ok (ResultClass.mk adr ((genCallDirectors adr directors).map g) jr)) := by
  have htasks : (genCallDirectors adr directors).map (fun d => bo.genDirectorCut vi d)
      = ((genCallDirectors adr directors).map g).map Except.ok := by
    rw [List.map_map]
    exact List.map_congr_left hg
  have hcomplete : ∀ i, i < ((genCallDirectors adr directors).map g).length → i ∈ sched := by
    intro i hi
    apply hsched
    simpa [genCallDirectors] using hi
  simp only [DirectorBakeOff.aforward, hs, htasks,
    gather_ok ((genCallDirectors adr directors).map g) sched hcomplete]

/-- Full success run of `aforward`: when additionally the judge answers
with a rank list of the contracted length, the returned `ResultClass`
carries the suggested director, the cuts in submission order, and the
judge output. -/
lemma aforward_ok (bo : DirectorBakeOff) (sched : List Nat) (vi adr : String)
    (directors : List String) (g : String → DirectorCut) (jr : JudgeOutput)
    (hs : bo.findDirector vi directors = Except.ok adr)
    (hg : ∀ d ∈ genCallDirectors adr directors,
      bo.genDirectorCut vi d = Except.ok (g d))
    (hsched : ∀ i, i < directors.length + 1 → i ∈ sched)
    (hj : bo.directorJudge ((genCallDirectors adr directors).map g) = Except.ok jr)
    (hlen : jr.director_rankings.length = directors.length + 1) :
    bo.aforward sched vi directors =
      Except.ok (ResultClass.mk adr ((genCallDirectors adr directors).map g) jr) := by
  rw [aforward_gen bo sched vi adr directors g hs hg hsched]
  have hne : jr.director_rankings ≠ [] := by
    intro h
    rw [h] at hlen
    simp at hlen
  have hlen2 : jr.director_rankings.length ≤ ((genCallDirectors adr directors).map g).length := by
    simp [genCallDirectors, hlen]
  obtain ⟨m, i, w, _, hsel, _, _, _, _⟩ :=
    selectWinner_spec ((genCallDirectors adr directors).map g) jr.director_rankings hne hlen2
  simp only [hj, hsel]

/-- When the schedule is complete and the earlier stages succeed but the
judge raises, `aforward` propagates that same error. -/
lemma aforward_judge_error (bo : DirectorBakeOff) (sched : List Nat) (vi adr : String)
    (directors : List String) (g : String → DirectorCut) (e : PyErr)
    (hs : bo.findDirector vi directors = Except.ok adr)
    (hg : ∀ d ∈ genCallDirectors adr directors,
      bo.genDirectorCut vi d = Except.ok (g d))
    (hsched : ∀ i, i < directors.length + 1 → i ∈ sched)
    (hj : bo.directorJudge ((genCallDirectors adr directors).map g) = Except.error e) :
    bo.aforward sched vi directors = Except.error e := by
  rw [aforward_gen bo sched vi adr directors g hs hg hsched]
  simp only [hj]

lemma str_ne_empty_iff (s : String) : s ≠ "" ↔ s.data ≠ [] := by
  constructor
  · intro h hd
    exact h (String.ext hd)
  · intro h he
    apply h
    rw [he]

lemma pyJoin_cons_ne (sep s : String) (rest : List String) (h : s ≠ "") :
    pyJoin sep (s :: rest) ≠ "" := by
  cases rest with
  | nil => simpa [pyJoin] using h
  | cons r t =>
    rw [str_ne_empty_iff]
    simp only [pyJoin, String.data_append]
    exact List.append_ne_nil_of_left_ne_nil
      (List.append_ne_nil_of_left_ne_nil ((str_ne_empty_iff s).mp h) sep.data)
      (pyJoin sep (r :: t)).data

lemma filter_strip_filter (l : List String) (h : ∀ s ∈ l, pyStrip s ≠ "") :
    ((l.filter (fun s => s != "")).map pyStrip).filter (fun s => s != "")
      = l.map pyStrip := by
  induction l with
  | nil => rfl
  | cons a t ih =>
    have ha' : pyStrip a ≠ "" := h a (List.mem_cons_self a t)
    have ha : a ≠ "" := by
      intro he
      apply ha'
      rw [he]
      rfl
    rw [List.filter_cons, if_pos (by exact bne_iff_ne.mpr ha), List.map_cons,
      List.filter_cons, if_pos (by exact bne_iff_ne.mpr ha'), List.map_cons,
      ih (fun s hs => h s (List.mem_cons_of_mem a hs))]

/-- Claim C4 (counterexample): a breakdown whose seven fields are all
non-empty (each is a single space) yields the empty string from
`assemble_prompt`, which therefore has no final character at all — it
is not a comma-joined sentence ending in a period, contradicting the
claim as stated. -/
theorem claim_C4_counterexample :
    (∀ s ∈ wsCut.components, s ≠ "") ∧
      wsCut.assemble_prompt = "" ∧
      (wsCut.assemble_prompt).data.getLast? = none := by
  refine ⟨by decide, rfl, rfl⟩

/-- Claim C4 (amended): on a breakdown whose seven fields are all
non-empty after stripping, `assemble_prompt` returns the stripped
fields joined with comma-space, first character upper-cased, with a
single period appended; on a breakdown whose fields are all empty it
returns the empty string. -/
theorem claim_C4_assemble_amended :
    (∀ dc : DirectorCut, (∀ s ∈ dc.components, pyStrip s ≠ "") →
      dc.assemble_prompt
        = pyCapFirst (pyJoin (", ") (dc.components.map pyStrip)) ++ ".")
    ∧ (∀ dc : DirectorCut, (∀ s ∈ dc.components, s = "") →
      dc.assemble_prompt = "") := by
  constructor
  · intro dc h
    have h1 : pyStrip dc.subject_description ≠ "" :=
      h dc.subject_description (by simp [DirectorCut.components])
    have hmap : dc.components.map pyStrip
        = pyStrip dc.subject_description ::
          ([dc.action_description, dc.setting_description, dc.cinematic_style,
            dc.shot_and_framing, dc.camera_movement,
            dc.lighting_and_color].map pyStrip) := by
      simp [DirectorCut.components]
    have hne := pyJoin_cons_ne (", ") (pyStrip dc.subject_description)
      ([dc.action_description, dc.setting_description, dc.cinematic_style,
        dc.shot_and_framing, dc.camera_movement,
        dc.lighting_and_color].map pyStrip) h1
    simp only [DirectorCut.assemble_prompt, filter_strip_filter dc.components h]
    rw [hmap, if_neg hne]
  · intro dc h
    have hf : dc.components.filter (fun s => s != "") = [] := by
      rw [List.filter_eq_nil_iff]
      intro a ha
      simp [h a ha]
    simp only [DirectorCut.assemble_prompt, hf]
    rfl

/-- Witness for the amended C4 at a concrete breakdown. -/
theorem claim_C4_assemble_amended_witness :
    (∀ s ∈ (demoCut ("X")).components, pyStrip s ≠ "") ∧
      (demoCut ("X")).assemble_prompt
        = pyCapFirst (pyJoin (", ") ((demoCut ("X")).components.map pyStrip)) ++ "." :=
  ⟨by decide, claim_C4_assemble_amended.1 (demoCut ("X")) (by decide)⟩

/-- Claim C5: director-list parsing — the worked comma example, the
`None` and empty-string defaults, and the fallback when stripping
leaves no entries. -/
theorem claim_C5_director_parsing :
    parse_directors (some ("  Wes Anderson ,  , Bong Joon-ho "))
        = ["Wes Anderson", "Bong Joon-ho"]
    ∧ parse_directors none = default_directors
    ∧ parse_directors (some ("")) = default_directors
    ∧ ∀ s : String,
        ((pySplitComma s).map pyStrip).filter (fun d => d != "") = [] →
        parse_directors (some s) = default_directors := by
  refine ⟨by decide, rfl, rfl, ?_⟩
  intro s h
  simp only [parse_directors]
  by_cases hb : pyStrip s = ""
  · rw [if_pos hb]
  · rw [if_neg hb, h]
    simp

/-- Witness for C5 at a string whose entries all strip to empty. -/
theorem claim_C5_witness :
    parse_directors (some (" , ,")) = default_directors :=
  claim_C5_director_parsing.2.2.2 (" , ,") (by decide)

/-- Claim C1: on a successful run the breakdown list returned by the
orchestrator is the supplied directors in their original order followed
by the AI-suggested director last, for every complete completion
schedule of the concurrent generation calls. -/
theorem claim_C1_breakdown_order (bo : DirectorBakeOff) (sched : List Nat)
    (vi adr : String) (directors : List String) (g : String → DirectorCut)
    (jr : JudgeOutput)
    (hs : bo.findDirector vi directors = Except.ok adr)
    (hg : ∀ d ∈ genCallDirectors adr directors,
      bo.genDirectorCut vi d = Except.ok (g d))
    (hsched : ∀ i, i < directors.length + 1 → i ∈ sched)
    (hj : bo.directorJudge ((genCallDirectors adr directors).map g) = Except.ok jr)
    (hlen : jr.director_rankings.length = directors.length + 1) :
    ∃ r, bo.aforward sched vi directors = Except.ok r ∧
      r.director_ideas = (directors ++ [adr]).map g ∧
      r.additional_director = adr :=
  ⟨ResultClass.mk adr ((genCallDirectors adr directors).map g) jr,
   aforward_ok bo sched vi adr directors g jr hs hg hsched hj hlen, rfl, rfl⟩

/-- Witness for C1: two supplied directors, a completion schedule that
finishes the calls out of submission order, and the demo oracles. -/
theorem claim_C1_breakdown_order_witness :
    ∃ r, demoBakeOff.aforward [2, 0, 1] ("a lighthouse at dawn")
        (["Wes Anderson", "Bong Joon-ho"]) = Except.ok r ∧
      r.director_ideas
        = ((["Wes Anderson", "Bong Joon-ho"] : List String)
            ++ ["Hayao Miyazaki"]).map demoCut ∧
      r.additional_director = "Hayao Miyazaki" :=
  claim_C1_breakdown_order demoBakeOff [2, 0, 1] ("a lighthouse at dawn")
    ("Hayao Miyazaki") (["Wes Anderson", "Bong Joon-ho"]) demoCut
    (JudgeOutput.mk [1, 2, 3] ("<h4>demo</h4>"))
    rfl (fun _ _ => rfl) (by decide) rfl rfl

/-- Claim C2: winner selection is the pure function `selectWinner` of
the rank sequence; on every non-empty rank sequence (covered by the
breakdown list) it picks the first index holding the minimum rank, and
on `[2, 1, 1, 3]` it picks index 1, not index 2. -/
theorem claim_C2_winner_first_min :
    (∀ (ideas : List DirectorCut) (rankings : List Int),
      rankings ≠ [] → rankings.length ≤ ideas.length →
      ∃ m i w, selectWinner ideas rankings = Except.ok (i, w) ∧
        rankings[i]? = some m ∧ (∀ x ∈ rankings, m ≤ x) ∧
        (∀ j, j < i → rankings[j]? ≠ some m) ∧ ideas[i]? = some w)
    ∧ selectWinner [demoCut ("A"), demoCut ("B"), demoCut ("C"), demoCut ("D")]
        [2, 1, 1, 3] = Except.ok (1, demoCut ("B")) := by
  constructor
  · intro ideas rankings hne hlen
    obtain ⟨m, i, w, _, hsel, hgi, hle, hfirst, hw⟩ :=
      selectWinner_spec ideas rankings hne hlen
    exact ⟨m, i, w, hsel, hgi, hle, hfirst, hw⟩
  · rfl

/-- Witness for C2 at the rank sequence of the claim. -/
theorem claim_C2_winner_first_min_witness :
    (([2, 1, 1, 3] : List Int) ≠ []
      ∧ ([2, 1, 1, 3] : List Int).length
          ≤ ([demoCut ("A"), demoCut ("B"), demoCut ("C"), demoCut ("D")]).length)
    ∧ ∃ m i w,
        selectWinner [demoCut ("A"), demoCut ("B"), demoCut ("C"), demoCut ("D")]
          [2, 1, 1, 3] = Except.ok (i, w) ∧
        ([2, 1, 1, 3] : List Int)[i]? = some m ∧
        (∀ x ∈ ([2, 1, 1, 3] : List Int), m ≤ x) ∧
        (∀ j, j < i → ([2, 1, 1, 3] : List Int)[j]? ≠ some m) ∧
        ([demoCut ("A"), demoCut ("B"), demoCut ("C"), demoCut ("D")])[i]? = some w :=
  ⟨⟨by decide, by decide⟩,
   claim_C2_winner_first_min.1
     [demoCut ("A"), demoCut ("B"), demoCut ("C"), demoCut ("D")]
     [2, 1, 1, 3] (by decide) (by decide)⟩

/-- Claim C3: for a non-empty director list of size N the orchestrator
issues exactly N+1 breakdown-generation calls (one per entry of
`genCallDirectors`), and when the judge honours its length contract the
returned rank sequence has length N+1, equal to the number of
breakdowns judged. -/
theorem claim_C3_call_count (bo : DirectorBakeOff) (sched : List Nat)
    (vi adr : String) (directors : List String) (g : String → DirectorCut)
    (jr : JudgeOutput)
    (hne : directors ≠ [])
    (hs : bo.findDirector vi directors = Except.ok adr)
    (hg : ∀ d ∈ genCallDirectors adr directors,
      bo.genDirectorCut vi d = Except.ok (g d))
    (hsched : ∀ i, i < directors.length + 1 → i ∈ sched)
    (hj : bo.directorJudge ((genCallDirectors adr directors).map g) = Except.ok jr)
    (hlen : jr.director_rankings.length
      = ((genCallDirectors adr directors).map g).length) :
    (genCallDirectors adr directors).length = directors.length + 1 ∧
    ∃ r, bo.aforward sched vi directors = Except.ok r ∧
      r.director_ideas.length = directors.length + 1 ∧
      r.director_ranks.director_rankings.length = directors.length + 1 ∧
      r.director_ranks.director_rankings.length = r.director_ideas.length := by
  have hlen' : jr.director_rankings.length = directors.length + 1 := by
    simpa [genCallDirectors] using hlen
  refine ⟨by simp [genCallDirectors],
    ResultClass.mk adr ((genCallDirectors adr directors).map g) jr,
    aforward_ok bo sched vi adr directors g jr hs hg hsched hj hlen', ?_, hlen', ?_⟩
  · simp [genCallDirectors]
  · simp [genCallDirectors, hlen']

/-- Witness for C3 with N = 2 supplied directors. -/
theorem claim_C3_call_count_witness :
    (["Wes Anderson", "Bong Joon-ho"] : List String) ≠ [] ∧
    ((genCallDirectors ("Hayao Miyazaki") ["Wes Anderson", "Bong Joon-ho"]).length
        = 2 + 1 ∧
      ∃ r, demoBakeOff.aforward [0, 1, 2] ("a lighthouse at dawn")
          (["Wes Anderson", "Bong Joon-ho"]) = Except.ok r ∧
        r.director_ideas.length = 2 + 1 ∧
        r.director_ranks.director_rankings.length = 2 + 1 ∧
        r.director_ranks.director_rankings.length = r.director_ideas.length) :=
  ⟨by decide,
   claim_C3_call_count demoBakeOff [0, 1, 2] ("a lighthouse at dawn")
     ("Hayao Miyazaki") (["Wes Anderson", "Bong Joon-ho"]) demoCut
     (JudgeOutput.mk [1, 2, 3] ("<h4>demo</h4>"))
     (by decide) rfl (fun _ _ => rfl) (by decide) rfl (by decide)⟩

/-- Claim C6: when the provider is configured and the judging task
raises a transport error, `run_bake_off` propagates that same error
unmodified to its caller — no retry, no partial result. -/
theorem claim_C6_error_propagation (bo : DirectorBakeOff) (sched : List Nat)
    (env : Option String) (st : ProcState) (l : LM) (vi : String)
    (ds : Option String) (adr : String) (g : String → DirectorCut) (e : PyErr)
    (hlm : st.lm = some l)
    (hs : bo.findDirector vi (parse_directors ds) = Except.ok adr)
    (hg : ∀ d ∈ genCallDirectors adr (parse_directors ds),
      bo.genDirectorCut vi d = Except.ok (g d))
    (hsched : ∀ i, i < (parse_directors ds).length + 1 → i ∈ sched)
    (hj : bo.directorJudge ((genCallDirectors adr (parse_directors ds)).map g)
      = Except.error e) :
    (run_bake_off bo sched env st vi ds).1 = Except.error e := by
  simp only [run_bake_off, hlm]
  exact aforward_judge_error bo sched vi adr (parse_directors ds) g e hs hg hsched hj

/-- Witness for C6: the failing-judge module propagates the transport
error through `run_bake_off`. -/
theorem claim_C6_error_propagation_witness :
    (run_bake_off failingJudgeBakeOff [0, 1, 2, 3] none
        (ProcState.mk (some (LM.mk ("m") ("k"))) 1) ("idea") none).1
      = Except.error (PyErr.taskError ("transport error")) :=
  claim_C6_error_propagation failingJudgeBakeOff [0, 1, 2, 3] none
    (ProcState.mk (some (LM.mk ("m") ("k"))) 1) (LM.mk ("m") ("k")) ("idea") none
    ("Hayao Miyazaki") demoCut (PyErr.taskError ("transport error"))
    rfl rfl (fun _ _ => rfl) (by decide) rfl

/-- Claim C7: the presentation layer sorts the positionally correlated
`(rank, cut)` pairs ascending by rank before rendering (a permutation
of the pairs, sorted), and on breakdowns A, B, C with ranks [3, 1, 2]
the rendered order is B, C, A. -/
theorem claim_C7_presentation_sort :
    (∀ (ideas : List DirectorCut) (rankings : List Int),
      ideas.length ≤ rankings.length →
      renderOrder ideas rankings
          = Except.ok ((sortRanked (rankings.zip ideas)).map Prod.snd) ∧
        List.Sorted pairLE (sortRanked (rankings.zip ideas)) ∧
        List.Perm (sortRanked (rankings.zip ideas)) (rankings.zip ideas))
    ∧ renderOrder [demoCut ("A"), demoCut ("B"), demoCut ("C")] [3, 1, 2]
        = Except.ok [demoCut ("B"), demoCut ("C"), demoCut ("A")] := by
  constructor
  · intro ideas rankings h
    refine ⟨?_, List.sorted_insertionSort pairLE _, List.perm_insertionSort pairLE _⟩
    simp [renderOrder, buildRanked, h, sortRanked, Except.map]
  · rfl

/-- Witness for C7 at the three-breakdown example. -/
theorem claim_C7_presentation_sort_witness :
    (([demoCut ("A"), demoCut ("B"), demoCut ("C")] : List DirectorCut).length
        ≤ ([3, 1, 2] : List Int).length)
    ∧ (renderOrder [demoCut ("A"), demoCut ("B"), demoCut ("C")] [3, 1, 2]
          = Except.ok
            ((sortRanked (([3, 1, 2] : List Int).zip
                [demoCut ("A"), demoCut ("B"), demoCut ("C")])).map Prod.snd) ∧
        List.Sorted pairLE (sortRanked (([3, 1, 2] : List Int).zip
          [demoCut ("A"), demoCut ("B"), demoCut ("C")])) ∧
        List.Perm (sortRanked (([3, 1, 2] : List Int).zip
            [demoCut ("A"), demoCut ("B"), demoCut ("C")]))
          (([3, 1, 2] : List Int).zip [demoCut ("A"), demoCut ("B"), demoCut ("C")])) :=
  ⟨by decide,
   claim_C7_presentation_sort.1 [demoCut ("A"), demoCut ("B"), demoCut ("C")]
     [3, 1, 2] (by decide)⟩

/-- Claim C8 (counterexample): formatting `badFormatResult` raises, the
exception is caught locally and the local panel is returned — but that
panel contains no full trace (neither the technical-details disclosure
nor a preformatted block), contradicting the claim as stated. -/
theorem claim_C8_counterexample :
    format_body badFormatResult = Except.error PyErr.indexError ∧
    format_results_html (some badFormatResult)
      = errorFormattingPanel PyErr.indexError ∧
    ¬ includesFullTrace (format_results_html (some badFormatResult)) :=
  ⟨rfl, rfl, by decide⟩

/-- Claim C8 (amended): any exception raised while formatting a
successful result is caught locally inside `format_results_html`, which
then returns the local diagnostic panel carrying the exception text
(but no full trace); the formatting step never propagates an exception
to the page. -/
theorem claim_C8_format_catch :
    ∀ r : ResultClass,
      (∃ h, format_body r = Except.ok h ∧ format_results_html (some r) = h)
      ∨ (∃ e, format_body r = Except.error e ∧
          format_results_html (some r) = errorFormattingPanel e) := by
  intro r
  cases hb : format_body r with
  | ok h => exact Or.inl ⟨h, rfl, by simp [format_results_html, hb]⟩
  | error e => exact Or.inr ⟨e, rfl, by simp [format_results_html, hb]⟩

/-- Claim C9: with an unconfigured handle, a missing (or empty, hence
falsy) credential makes `run_bake_off` fail with `SystemExit` and a
non-zero exit code no matter what the oracles would do (no request
proceeds); with a credential present the handle is initialized exactly
once, synchronously, before the first request; and once the handle is
set, later calls never run the setup again. -/
theorem claim_C9_credential_startup :
    (∀ (bo : DirectorBakeOff) (sched : List Nat) (st : ProcState) (vi : String)
        (ds : Option String) (env : Option String),
      st.lm = none → (env = none ∨ env = some "") →
      ∃ c, c ≠ 0 ∧
        (run_bake_off bo sched env st vi ds).1 = Except.error (PyErr.systemExit c))
    ∧ (∀ (bo : DirectorBakeOff) (sched : List Nat) (st : ProcState) (vi : String)
        (ds : Option String) (k : String),
      st.lm = none → k ≠ "" →
      (run_bake_off bo sched (some k) st vi ds).2
        = ProcState.mk (some (LM.mk ("openrouter/moonshotai/kimi-k2:free") k))
            (st.setupCalls + 1))
    ∧ (∀ (bo : DirectorBakeOff) (sched : List Nat) (env : Option String)
        (st : ProcState) (vi : String) (ds : Option String) (l : LM),
      st.lm = some l → (run_bake_off bo sched env st vi ds).2 = st) := by
  refine ⟨?_, ?_, ?_⟩
  · intro bo sched st vi ds env hlm henv
    refine ⟨1, one_ne_zero, ?_⟩
    rcases henv with h | h
    · subst h
      simp [run_bake_off, hlm, setup_dspy_provider]
    · subst h
      simp [run_bake_off, hlm, setup_dspy_provider]
  · intro bo sched st vi ds k hlm hk
    simp [run_bake_off, hlm, setup_dspy_provider, hk]
  · intro bo sched env st vi ds l hlm
    simp [run_bake_off, hlm]

/-- Witness for C9: missing key exits; a present key initializes the
handle once; a configured handle is left untouched. -/
theorem claim_C9_credential_startup_witness :
    (∃ c, c ≠ 0 ∧
      (run_bake_off demoBakeOff [0] none (ProcState.mk none 0) ("v") none).1
        = Except.error (PyErr.systemExit c))
    ∧ (run_bake_off demoBakeOff [0] (some ("key")) (ProcState.mk none 0) ("v") none).2
        = ProcState.mk (some (LM.mk ("openrouter/moonshotai/kimi-k2:free") ("key"))) 1
    ∧ (run_bake_off demoBakeOff [0] none
        (ProcState.mk (some (LM.mk ("m") ("k"))) 1) ("v") none).2
        = ProcState.mk (some (LM.mk ("m") ("k"))) 1 :=
  ⟨claim_C9_credential_startup.1 demoBakeOff [0] (ProcState.mk none 0) ("v") none
      none rfl (Or.inl rfl),
   claim_C9_credential_startup.2.1 demoBakeOff [0] (ProcState.mk none 0) ("v") none
      ("key") rfl (by decide),
   claim_C9_credential_startup.2.2 demoBakeOff [0] none
      (ProcState.mk (some (LM.mk ("m") ("k"))) 1) ("v") none (LM.mk ("m") ("k")) rfl⟩

/-- Claim C10: on an absent, empty, or whitespace-only video idea the
submit handler never invokes `run_bake_off` and — because the guard
message is produced by `return` inside a generator, not yielded — emits
zero output fragments, so the guard message is never displayed. -/
theorem claim_C10_blank_idea_guard (bo : DirectorBakeOff) (sched : List Nat)
    (env : Option String) (st : ProcState) (tb : String)
    (video_idea : Option String) (directors : Option String)
    (h : pyFalsyOrBlank video_idea = true) :
    run_director_bakeoff bo sched env st tb video_idea directors = ([], false, st)
    ∧ handle_submit bo sched env st tb video_idea directors = ([], false, st) := by
  constructor
  · simp [run_director_bakeoff, h]
  · simp [handle_submit, run_director_bakeoff, h]

/-- Witness for C10 at a whitespace-only video idea. -/
theorem claim_C10_blank_idea_guard_witness :
    pyFalsyOrBlank (some ("   ")) = true ∧
    run_director_bakeoff demoBakeOff [0] none (ProcState.mk none 0) ("tb")
        (some ("   ")) none = ([], false, ProcState.mk none 0) ∧
    handle_submit demoBakeOff [0] none (ProcState.mk none 0) ("tb")
        (some ("   ")) none = ([], false, ProcState.mk none 0) :=
  ⟨by decide,
   (claim_C10_blank_idea_guard demoBakeOff [0] none (ProcState.mk none 0) ("tb")
      (some ("   ")) none (by decide)).1,
   (claim_C10_blank_idea_guard demoBakeOff [0] none (ProcState.mk none 0) ("tb")
      (some ("   ")) none (by decide)).2⟩
